import Mathlib

/-!
Verification of the STM32 secure-channel firmware (`src/PROJECT.c`).

The C program is shallowly embedded: global buffers become fields of a
state record `St`, every external call (HAL UART transmit/receive, the
hardware RNG, the ATECC608B secure element, and the wolfSSL software
crypto primitives) is answered by an oracle record `Env`, and each C
function becomes a Lean function threading the state and emitting a
trace of externally observable events (`Ev`).  Outcomes of repeated
external calls are indexed by per-peripheral call counters kept in the
state, so one `Env` describes a whole run.
-/

namespace Stm32

/-- Byte strings are lists of naturals (each byte the value of a `uint8_t`). -/
abbrev Bytes := List Nat

/-- ATCA status codes used by the program: `ATCA_SUCCESS`, `ATCA_RX_FAIL`,
`ATCA_TX_FAIL`, `ATCA_GEN_FAIL`, `ATCA_FUNC_FAIL`, and a stand-in for any
other non-success code a device call may return. -/
inductive Status where
  | success
  | rxFail
  | txFail
  | genFail
  | funcFail
  | otherFail
  deriving DecidableEq, Repr

/-- Constant `PUB_KEY_SIZE` from the source. -/
def PUB_KEY_SIZE : Nat := 64
/-- Constant `AES_KEY_SIZE` from the source. -/
def AES_KEY_SIZE : Nat := 16
/-- Constant `AES_IV_SIZE` from the source. -/
def AES_IV_SIZE : Nat := 12
/-- Constant `AES_TAG_SIZE` from the source. -/
def AES_TAG_SIZE : Nat := 16
/-- Constant `SIGNATURE_SIZE` from the source. -/
def SIGNATURE_SIZE : Nat := 64
/-- Constant `RX_BUFFER_SIZE` from the source. -/
def RX_BUFFER_SIZE : Nat := 128
/-- Constant `CHALLENGE_SIZE` from the source. -/
def CHALLENGE_SIZE : Nat := 32
/-- Constant `MAX_RETRIES` from the source. -/
def MAX_RETRIES : Nat := 3

/-- Externally observable events of a run: transport operations on the
SATCOM UART (`huart2`), RandomSource outputs, and the cryptographic
operations delegated to the secure element / crypto library. -/
inductive Ev where
  /-- `HAL_UART_Transmit` on `huart2` succeeded, carrying the transmitted bytes. -/
  | send (data : Bytes)
  /-- `HAL_UART_Transmit` on `huart2` failed while attempting these bytes. -/
  | sendFail (data : Bytes)
  /-- `HAL_UART_Receive` on `huart2` succeeded, carrying the received bytes. -/
  | recv (data : Bytes)
  /-- `HAL_UART_Receive` on `huart2` failed for a requested length. -/
  | recvFail (len : Nat)
  /-- `generate_random` produced these bytes from the hardware RNG. -/
  | rng (data : Bytes)
  /-- `wc_AesGcmEncrypt` was invoked with this key, nonce and plaintext. -/
  | encrypt (key nonce pt : Bytes)
  /-- `atcab_sign(DEVICE_KEY_SLOT, hash, ...)` was invoked on this hash. -/
  | signEv (hash : Bytes)
  /-- `wc_ecc_verify_hash` was invoked on this signature, hash and public key. -/
  | verifyEv (sig hash pk : Bytes)
  /-- `atcab_ecdh(DEVICE_KEY_SLOT, peer_pubkey, ...)` was invoked. -/
  | ecdhEv (pk : Bytes)
  /-- `HAL_Delay(1000)` between handshake attempts. -/
  | delay
  /-- `Error_Handler()` was entered: interrupts disabled, infinite empty loop. -/
  | halt
  deriving DecidableEq, Repr

/-- Oracle for every external call the program makes.  Calls that may give
different answers on successive invocations are indexed by a call counter
kept in `St`; calls whose answer is a function of their arguments are
modelled as such. -/
structure Env where
  /-- Outcome of the n-th `HAL_UART_Transmit` on `huart2` (`true` = `HAL_OK`). -/
  txOk : Nat → Bool
  /-- Outcome of the n-th `HAL_UART_Receive` on `huart2`. -/
  rxOk : Nat → Bool
  /-- Byte `i` delivered by the n-th successful `HAL_UART_Receive` on `huart2`. -/
  rxByte : Nat → Nat → Nat
  /-- 32-bit word left in `rnd` by the n-th `HAL_RNG_GenerateRandomNumber`
  call; its return status is ignored by the program, so the oracle only
  reports the word. -/
  rngWord : Nat → Nat
  /-- Whether the n-th `wc_InitSha256` call returns 0. -/
  shaInitOk : Nat → Bool
  /-- Whether the n-th `wc_Sha256Update` call returns 0. -/
  shaUpdateOk : Nat → Bool
  /-- Whether the n-th `wc_Sha256Final` call returns 0. -/
  shaFinalOk : Nat → Bool
  /-- Byte `j` of the SHA-256 digest of a message (the value `wc_Sha256Final`
  writes when the computation succeeds). -/
  shaDigest : Bytes → Nat → Nat
  /-- Status returned by `atcab_ecdh(DEVICE_KEY_SLOT, pk, ...)`. -/
  ecdhStatus : Bytes → Status
  /-- Byte `j` of the 32-byte shared secret `atcab_ecdh` writes on success. -/
  ecdhByte : Bytes → Nat → Nat
  /-- Status returned by `atcab_sign(DEVICE_KEY_SLOT, hash, ...)`. -/
  signStatus : Bytes → Status
  /-- Byte `j` of the 64-byte signature `atcab_sign` writes on success. -/
  signByte : Bytes → Nat → Nat
  /-- Status returned by `atcab_genkey(DEVICE_KEY_SLOT, ...)`. -/
  genkeyStatus : Status
  /-- Byte `j` of the 64-byte public key `atcab_genkey` writes on success. -/
  genkeyByte : Nat → Nat
  /-- Whether `atcab_init(&cfg_atecc608b_i2c)` succeeds. -/
  atcabInitOk : Bool
  /-- Whether `wc_ecc_import_x963(pk, 64, &key)` returns 0. -/
  importOk : Bytes → Bool
  /-- Whether `wc_ecc_set_curve(&key, 32, ECC_SECP256R1)` returns 0 for a key
  imported from these bytes. -/
  setCurveOk : Bytes → Bool
  /-- Whether `wc_ecc_verify_hash(sig, 64, hash, 32, &res, &key)` returns 0
  with `res = 1` (signature valid) for a key imported from `pk`. -/
  verifyOk : Bytes → Bytes → Bytes → Bool
  /-- Whether the n-th `wc_AesInit` call returns 0. -/
  aesInitOk : Nat → Bool
  /-- Whether `wc_AesGcmSetKey` returns 0 for this key. -/
  aesSetKeyOk : Bytes → Bool
  /-- Return value of `wc_AesGcmEncrypt` for key, nonce, plaintext (0 = ok). -/
  gcmRet : Bytes → Bytes → Bytes → Int
  /-- Byte `i` of the ciphertext `wc_AesGcmEncrypt` writes. -/
  gcmCt : Bytes → Bytes → Bytes → Nat → Nat
  /-- Byte `i` of the 16-byte tag `wc_AesGcmEncrypt` writes. -/
  gcmTag : Bytes → Bytes → Bytes → Nat → Nat
  /-- Outcome of the n-th `HAL_UART_Receive` on the console `huart1`. -/
  conOk : Nat → Bool
  /-- Byte delivered by the n-th console receive. -/
  conByte : Nat → Nat

/-- Program state: the global buffers of `PROJECT.c` plus the per-peripheral
call counters that index the oracle. -/
structure St where
  device_pubkey : Bytes
  peer_pubkey : Bytes
  aes_key : Bytes
  rx_buffer : Bytes
  iv : Bytes
  challenge : Bytes
  peer_challenge : Bytes
  txCnt : Nat
  rxCnt : Nat
  rngCnt : Nat
  shaCnt : Nat
  aesCnt : Nat
  conCnt : Nat
  deriving DecidableEq, Repr

/-- Initial state: zero-initialised globals (contents of the byte buffers are
never read before being written, so they start empty) and fresh counters. -/
def st0 : St :=
  { device_pubkey := [], peer_pubkey := [], aes_key := [], rx_buffer := []
    iv := [], challenge := [], peer_challenge := []
    txCnt := 0, rxCnt := 0, rngCnt := 0, shaCnt := 0, aesCnt := 0, conCnt := 0 }

/-- SHA-256 digest of a message as a 32-byte string, as produced by a
successful `wc_InitSha256` / `wc_Sha256Update` / `wc_Sha256Final` sequence. -/
def sha256d (env : Env) (msg : Bytes) : Bytes :=
  (List.range 32).map (env.shaDigest msg)

/-- One `wc_InitSha256` / `wc_Sha256Update` / `wc_Sha256Final` sequence, the
n-th hash computation of the run: `none` when any of the three steps fails
(each call site in the source checks each step and returns `ATCA_GEN_FAIL`),
otherwise the digest. -/
def sha256_compute (env : Env) (n : Nat) (msg : Bytes) : Option Bytes :=
  if env.shaInitOk n then
    if env.shaUpdateOk n then
      if env.shaFinalOk n then some (sha256d env msg)
      else none
    else none
  else none

/-- The 64-byte signature `atcab_sign(DEVICE_KEY_SLOT, hash, ...)` writes. -/
def sigBytes (env : Env) (hash : Bytes) : Bytes :=
  (List.range SIGNATURE_SIZE).map (env.signByte hash)

/-- The 32-byte shared secret `atcab_ecdh(DEVICE_KEY_SLOT, pk, ...)` writes. -/
def ecdhSecret (env : Env) (pk : Bytes) : Bytes :=
  (List.range 32).map (env.ecdhByte pk)

/-- `send_data(buf, len)`: one `HAL_UART_Transmit` on `huart2`; returns
`ATCA_SUCCESS` on `HAL_OK`, else `ATCA_TX_FAIL`.  `data` is the `len` bytes
the pointer designates. -/
def send_data (env : Env) (s : St) (data : Bytes) : Status × St × List Ev :=
  let n := s.txCnt
  let s' := { s with txCnt := n + 1 }
  if env.txOk n then (.success, s', [.send data])
  else (.txFail, s', [.sendFail data])

/-- `receive_data(buf, len)`: one `HAL_UART_Receive` on `huart2`; on `HAL_OK`
the driver fills exactly `len` bytes (returned as the last component),
status `ATCA_SUCCESS`; otherwise `ATCA_RX_FAIL` and the buffer is unused. -/
def receive_data (env : Env) (s : St) (len : Nat) : Status × St × List Ev × Bytes :=
  let n := s.rxCnt
  let s' := { s with rxCnt := n + 1 }
  if env.rxOk n then
    let data := (List.range len).map (env.rxByte n)
    (.success, s', [.recv data], data)
  else (.rxFail, s', [.recvFail len], [])

/-- Little-endian bytes of a 32-bit word, as `memcpy(&buf[i], &rnd, k)` lays
them out, for `k ≤ 4`. -/
def wordBytes (w : Nat) (k : Nat) : Bytes :=
  (List.range k).map (fun j => w / 256 ^ j % 256)

/-- Body of the `generate_random` loop: starting at RNG call counter `cnt`
with `rem` bytes still to fill, produce the bytes.  Each iteration consumes
one RNG word and writes `min 4 rem` bytes.  `fuel` bounds the recursion and
is instantiated with `rem`, which always suffices. -/
def grGo (env : Env) (cnt rem fuel : Nat) : Bytes :=
  match fuel with
  | 0 => []
  | f + 1 =>
    if rem = 0 then []
    else wordBytes (env.rngWord cnt) (min 4 rem) ++
         grGo env (cnt + 1) (rem - min 4 rem) f

/-- `generate_random(buf, len)`: fills all `len` bytes from successive
hardware-RNG words, four bytes at a time.  The C function is `void` and
ignores the return value of `HAL_RNG_GenerateRandomNumber`, so there is no
failure outcome: the embedding returns the produced bytes unconditionally. -/
def generate_random (env : Env) (s : St) (len : Nat) : St × Bytes × List Ev :=
  let b := grGo env s.rngCnt len len
  ({ s with rngCnt := s.rngCnt + (len + 3) / 4 }, b, [.rng b])

/-- `derive_shared_secret()`: `atcab_ecdh(DEVICE_KEY_SLOT, peer_pubkey, ss)`,
then SHA-256 of the 32-byte shared secret, then
`memcpy(aes_key, hash, AES_KEY_SIZE)`; any ECDH failure returns that status,
any SHA-256 step failure returns `ATCA_GEN_FAIL`, and only the fully
successful path writes `aes_key`. -/
def derive_shared_secret (env : Env) (s : St) : Status × St × List Ev :=
  let t0 : List Ev := [.ecdhEv s.peer_pubkey]
  let st := env.ecdhStatus s.peer_pubkey
  if st ≠ .success then (st, s, t0)
  else
    let ss := ecdhSecret env s.peer_pubkey
    let n := s.shaCnt
    let s' := { s with shaCnt := n + 1 }
    match sha256_compute env n ss with
    | none => (.genFail, s', t0)
    | some hash => (.success, { s' with aes_key := hash.take AES_KEY_SIZE }, t0)

/-- `sign_message(msg, msg_len, signature)`: SHA-256 of the message (failure
of any step returns `ATCA_GEN_FAIL`), then `atcab_sign(DEVICE_KEY_SLOT,
hash, signature)` whose status is returned directly; the 64-byte signature
is meaningful only on success. -/
def sign_message (env : Env) (s : St) (msg : Bytes) : Status × St × List Ev × Bytes :=
  let n := s.shaCnt
  let s' := { s with shaCnt := n + 1 }
  match sha256_compute env n msg with
  | none => (.genFail, s', [], [])
  | some hash =>
    (env.signStatus hash, s', [.signEv hash], sigBytes env hash)

/-- `verify_peer_public_key()`: receive the 64-byte peer signature
(`ATCA_RX_FAIL` on transport failure), SHA-256 the local challenge
(`ATCA_GEN_FAIL` on any step failure), import the stored peer public key and
set its curve (`ATCA_FUNC_FAIL` on either failure), then
`wc_ecc_verify_hash`; success exactly when the call returns 0 with
`verify_res = 1`, else `ATCA_FUNC_FAIL`. -/
def verify_peer_public_key (env : Env) (s : St) : Status × St × List Ev :=
  let (r1, s1, t1, sig) := receive_data env s SIGNATURE_SIZE
  if r1 ≠ .success then (.rxFail, s1, t1)
  else
    let n := s1.shaCnt
    let s2 := { s1 with shaCnt := n + 1 }
    match sha256_compute env n s2.challenge with
    | none => (.genFail, s2, t1)
    | some hash =>
      if ¬ env.importOk s2.peer_pubkey then (.funcFail, s2, t1)
      else if ¬ env.setCurveOk s2.peer_pubkey then (.funcFail, s2, t1)
      else
        let t2 := t1 ++ [.verifyEv sig hash s2.peer_pubkey]
        if env.verifyOk sig hash s2.peer_pubkey then (.success, s2, t2)
        else (.funcFail, s2, t2)

/-- `perform_key_exchange()`: the handshake, step for step as in the source —
send local public key, receive peer public key, generate and send the local
challenge, verify the peer's signature over it, receive the peer challenge,
sign and send the response, then derive the shared secret.  Each failing
step returns its error immediately. -/
def perform_key_exchange (env : Env) (s : St) : Status × St × List Ev :=
  let (r1, s1, t1) := send_data env s s.device_pubkey
  if r1 ≠ .success then (.txFail, s1, t1)
  else
    let (r2, s2, t2, ppk) := receive_data env s1 PUB_KEY_SIZE
    if r2 ≠ .success then (.rxFail, s2, t1 ++ t2)
    else
      let s2' := { s2 with peer_pubkey := ppk }
      let (s3, ch, t3) := generate_random env s2' CHALLENGE_SIZE
      let s3' := { s3 with challenge := ch }
      let (r4, s4, t4) := send_data env s3' s3'.challenge
      if r4 ≠ .success then (.txFail, s4, t1 ++ t2 ++ t3 ++ t4)
      else
        let (r5, s5, t5) := verify_peer_public_key env s4
        if r5 ≠ .success then (.funcFail, s5, t1 ++ t2 ++ t3 ++ t4 ++ t5)
        else
          let (r6, s6, t6, pch) := receive_data env s5 CHALLENGE_SIZE
          if r6 ≠ .success then (.rxFail, s6, t1 ++ t2 ++ t3 ++ t4 ++ t5 ++ t6)
          else
            let s6' := { s6 with peer_challenge := pch }
            let (r7, s7, t7, sg) := sign_message env s6' s6'.peer_challenge
            if r7 ≠ .success then
              (.genFail, s7, t1 ++ t2 ++ t3 ++ t4 ++ t5 ++ t6 ++ t7)
            else
              let (r8, s8, t8) := send_data env s7 sg
              if r8 ≠ .success then
                (.txFail, s8, t1 ++ t2 ++ t3 ++ t4 ++ t5 ++ t6 ++ t7 ++ t8)
              else
                let (r9, s9, t9) := derive_shared_secret env s8
                (r9, s9, t1 ++ t2 ++ t3 ++ t4 ++ t5 ++ t6 ++ t7 ++ t8 ++ t9)

/-- `encrypt_message(plaintext, length, ciphertext, tag)`: `wc_AesInit`,
`wc_AesGcmSetKey(aes_key)`, then `wc_AesGcmEncrypt` with the global `iv` and
no associated data; returns -1 on init/set-key failure, else the
`wc_AesGcmEncrypt` return value (0 = success), together with the ciphertext
(same length as the plaintext) and the 16-byte tag it writes. -/
def encrypt_message (env : Env) (s : St) (pt : Bytes) :
    Int × St × List Ev × Bytes × Bytes :=
  let n := s.aesCnt
  let s' := { s with aesCnt := n + 1 }
  if ¬ env.aesInitOk n then (-1, s', [], [], [])
  else if ¬ env.aesSetKeyOk s'.aes_key then (-1, s', [], [], [])
  else
    let ct := (List.range pt.length).map (env.gcmCt s'.aes_key s'.iv pt)
    let tag := (List.range AES_TAG_SIZE).map (env.gcmTag s'.aes_key s'.iv pt)
    (env.gcmRet s'.aes_key s'.iv pt, s', [.encrypt s'.aes_key s'.iv pt], ct, tag)

/-- Body of the `receive_user_input` line-reading loop: `con` is the console
call counter, `acc` the bytes typed so far, `fuel` the remaining capacity
`RX_BUFFER_SIZE - 1 - idx`.  A console receive failure yields `none`
(the C function returns -1); CR or LF ends the line; any other byte is
echoed and appended. -/
def rui_go (env : Env) (con : Nat) (acc : Bytes) (fuel : Nat) : Nat × Option Bytes :=
  match fuel with
  | 0 => (con, some acc)
  | f + 1 =>
    if env.conOk con then
      let ch := env.conByte con % 256
      if ch = 13 ∨ ch = 10 then (con + 1, some acc)
      else rui_go env (con + 1) (acc ++ [ch]) f
    else (con + 1, none)

/-- `receive_user_input()`: reads a line of at most `RX_BUFFER_SIZE - 1`
bytes from the console into `rx_buffer` and returns its length, or `none`
for the -1 (console failure) outcome. -/
def receive_user_input (env : Env) (s : St) : St × Option Bytes :=
  match rui_go env s.conCnt [] (RX_BUFFER_SIZE - 1) with
  | (c, none) => ({ s with conCnt := c }, none)
  | (c, some msg) => ({ s with conCnt := c, rx_buffer := msg }, some msg)

/-- Result of one pass of the steady-state `while (1)` loop body in `main`:
either the loop continues with a new state (trace empty when the iteration
took the `continue` branch for empty or failed input), or `Error_Handler()`
was entered and the process is halted for good. -/
inductive IterRes where
  | cont (s : St) (t : List Ev)
  | halted (t : List Ev)
  deriving DecidableEq, Repr

/-- One iteration of the messaging loop in `main`: read a line (`continue`
when it fails or is empty), generate a fresh 12-byte `iv`, encrypt, send
`iv`, `tag`, ciphertext in order, sign the plaintext's hash and send the
signature; any encryption, transmit or signing failure enters
`Error_Handler()`. -/
def loop_iter (env : Env) (s : St) : IterRes :=
  let (sa, r) := receive_user_input env s
  match r with
  | none => .cont sa []
  | some msg =>
    if msg.length = 0 then .cont sa []
    else
      let (sb, nonce, tr) := generate_random env sa AES_IV_SIZE
      let sb' := { sb with iv := nonce }
      let (ret, sc, te, ct, tag) := encrypt_message env sb' msg
      if ret ≠ 0 then .halted (tr ++ te ++ [.halt])
      else
        let (r1, s1, t1) := send_data env sc sc.iv
        if r1 ≠ .success then .halted (tr ++ te ++ t1 ++ [.halt])
        else
          let (r2, s2, t2) := send_data env s1 tag
          if r2 ≠ .success then .halted (tr ++ te ++ t1 ++ t2 ++ [.halt])
          else
            let (r3, s3, t3) := send_data env s2 ct
            if r3 ≠ .success then .halted (tr ++ te ++ t1 ++ t2 ++ t3 ++ [.halt])
            else
              let (r4, s4, t4, sg) := sign_message env s3 msg
              if r4 ≠ .success then
                .halted (tr ++ te ++ t1 ++ t2 ++ t3 ++ t4 ++ [.halt])
              else
                let (r5, s5, t5) := send_data env s4 sg
                if r5 ≠ .success then
                  .halted (tr ++ te ++ t1 ++ t2 ++ t3 ++ t4 ++ t5 ++ [.halt])
                else .cont s5 (tr ++ te ++ t1 ++ t2 ++ t3 ++ t4 ++ t5)

/-- The steady-state messaging loop run for at most `fuel` iterations: the
Boolean records whether `Error_Handler()` was entered.  Once an iteration
halts, no further iteration runs and the trace is final. -/
def run_loop (env : Env) (s : St) : Nat → List Ev × Bool
  | 0 => ([], false)
  | n + 1 =>
    match loop_iter env s with
    | .cont s' t => let (t', h) := run_loop env s' n; (t ++ t', h)
    | .halted t => (t, true)

/-- Result of the supervisor's handshake-retry loop: the messaging phase is
entered with the post-handshake state, or the device halted. -/
inductive HsRes where
  | ok (s : St) (t : List Ev)
  | halted (t : List Ev)
  deriving DecidableEq, Repr

/-- The `while (perform_key_exchange() != ATCA_SUCCESS)` retry loop of
`main`, with `left` the number of attempts still permitted (initially
`MAX_RETRIES`): a failed attempt increments `retries` and enters
`Error_Handler()` when `retries` reaches `MAX_RETRIES`, otherwise delays
1000 ms and retries. -/
def handshake_retry (env : Env) (s : St) : Nat → HsRes
  | 0 => .halted [.halt]
  | n + 1 =>
    match perform_key_exchange env s with
    | (.success, s', t) => .ok s' t
    | (_, s', t) =>
      match n with
      | 0 => .halted (t ++ [.halt])
      | m + 1 =>
        match handshake_retry env s' (m + 1) with
        | .ok s'' t' => .ok s'' (t ++ .delay :: t')
        | .halted t' => .halted (t ++ .delay :: t')

/-- The state after the boot sequence of `main` when `atcab_init` and
`generate_and_store_keypair` both succeeded: `device_pubkey` holds the
64-byte public key `atcab_genkey(DEVICE_KEY_SLOT, device_pubkey)` wrote. -/
def stBoot (env : Env) : St :=
  { st0 with device_pubkey := (List.range PUB_KEY_SIZE).map env.genkeyByte }

/-- `main()` from `atcab_init` onward (peripheral bring-up is out of scope):
halt if the secure element fails to initialise or the keypair generation
fails; run the handshake-retry loop; on success enter the messaging loop
for at most `fuel` iterations. -/
def main_run (env : Env) (fuel : Nat) : List Ev × Bool :=
  if ¬ env.atcabInitOk then ([.halt], true)
  else if env.genkeyStatus ≠ .success then ([.halt], true)
  else
    match handshake_retry env (stBoot env) MAX_RETRIES with
    | .halted t => (t, true)
    | .ok s t => let (t', h) := run_loop env s fuel; (t ++ t', h)

/-- Direction and size of a transport operation on `huart2`: `true` for a
transmit, `false` for a receive, with the byte count. -/
def evSize : Ev → Option (Bool × Nat)
  | .send d => some (true, d.length)
  | .sendFail d => some (true, d.length)
  | .recv d => some (false, d.length)
  | .recvFail n => some (false, n)
  | _ => none

/-- The sequence of transport operations (direction, size) of a trace. -/
def transportOps (t : List Ev) : List (Bool × Nat) := t.filterMap evSize

/-- The keys with which `wc_AesGcmEncrypt` is invoked in a trace. -/
def encKeys (t : List Ev) : List Bytes :=
  t.filterMap fun e => match e with | .encrypt k _ _ => some k | _ => none

/-- The session key the program derives on a successful handshake whose
stored peer public key is `pk`: the first 16 bytes of the SHA-256 of the
ECDH shared secret. -/
def derivedKey (env : Env) (pk : Bytes) : Bytes :=
  (sha256d env (ecdhSecret env pk)).take AES_KEY_SIZE

/-- The peer public key received in a handshake started in state `s`. -/
def ppkOf (env : Env) (s : St) : Bytes :=
  (List.range PUB_KEY_SIZE).map (env.rxByte s.rxCnt)

/-- The local challenge generated in a handshake started in state `s`. -/
def chOf (env : Env) (s : St) : Bytes :=
  grGo env s.rngCnt CHALLENGE_SIZE CHALLENGE_SIZE

/-- The peer signature received in a handshake started in state `s`. -/
def psigOf (env : Env) (s : St) : Bytes :=
  (List.range SIGNATURE_SIZE).map (env.rxByte (s.rxCnt + 1))

/-- The peer challenge received in a handshake started in state `s`. -/
def pchOf (env : Env) (s : St) : Bytes :=
  (List.range CHALLENGE_SIZE).map (env.rxByte (s.rxCnt + 2))

/-- The event trace of a fully successful `perform_key_exchange` run started
in state `s`. -/
def pkeTrace (env : Env) (s : St) : List Ev :=
  [.send s.device_pubkey, .recv (ppkOf env s), .rng (chOf env s),
   .send (chOf env s), .recv (psigOf env s),
   .verifyEv (psigOf env s) (sha256d env (chOf env s)) (ppkOf env s),
   .recv (pchOf env s), .signEv (sha256d env (pchOf env s)),
   .send (sigBytes env (sha256d env (pchOf env s))), .ecdhEv (ppkOf env s)]

/-- The state after a fully successful `perform_key_exchange` run started in
state `s`. -/
def pkeState (env : Env) (s : St) : St :=
  { s with peer_pubkey := ppkOf env s, challenge := chOf env s,
           peer_challenge := pchOf env s,
           aes_key := derivedKey env (ppkOf env s),
           txCnt := s.txCnt + 3, rxCnt := s.rxCnt + 3,
           rngCnt := s.rngCnt + 8, shaCnt := s.shaCnt + 3 }

/-- The fresh AEAD nonce generated by an iteration of the messaging loop
started in state `s`: twelve bytes taken from the three hardware-RNG words
at stream positions `s.rngCnt`, `s.rngCnt + 1`, `s.rngCnt + 2`. -/
def nonceOf (env : Env) (s : St) : Bytes :=
  grGo env s.rngCnt AES_IV_SIZE AES_IV_SIZE

/-- The ciphertext `wc_AesGcmEncrypt` produces for a messaging-loop
iteration started in state `s` with plaintext `msg`. -/
def ctOf (env : Env) (s : St) (msg : Bytes) : Bytes :=
  (List.range msg.length).map (env.gcmCt s.aes_key (nonceOf env s) msg)

/-- The tag `wc_AesGcmEncrypt` produces for a messaging-loop iteration
started in state `s` with plaintext `msg`. -/
def tagOf (env : Env) (s : St) (msg : Bytes) : Bytes :=
  (List.range AES_TAG_SIZE).map (env.gcmTag s.aes_key (nonceOf env s) msg)

/-- The event trace of a fully successful messaging-loop iteration started
in state `s` with plaintext `msg`. -/
def iterTrace (env : Env) (s : St) (msg : Bytes) : List Ev :=
  [.rng (nonceOf env s), .encrypt s.aes_key (nonceOf env s) msg,
   .send (nonceOf env s), .send (tagOf env s msg), .send (ctOf env s msg),
   .signEv (sha256d env msg), .send (sigBytes env (sha256d env msg))]

/-- The state after a fully successful messaging-loop iteration started in
state `s`, where the console loop stopped with counter `c` and read `msg`. -/
def iterState (env : Env) (s : St) (c : Nat) (msg : Bytes) : St :=
  { s with conCnt := c, rx_buffer := msg, iv := nonceOf env s,
           rngCnt := s.rngCnt + 3, aesCnt := s.aesCnt + 1,
           txCnt := s.txCnt + 4, shaCnt := s.shaCnt + 1 }

/-- A hash computation either fails (some step returned nonzero) or yields
the digest. -/
theorem sha256_compute_cases (env : Env) (n : Nat) (m : Bytes) :
    sha256_compute env n m = none ∨ sha256_compute env n m = some (sha256d env m) := by
  by_cases a : env.shaInitOk n = true <;> by_cases b : env.shaUpdateOk n = true <;>
    by_cases c : env.shaFinalOk n = true <;> simp [sha256_compute, a, b, c]

/-- Bytes laid out by `memcpy` from a word are as many as requested. -/
theorem wordBytes_length (w k : Nat) : (wordBytes w k).length = k := by
  simp [wordBytes]

/-- The `generate_random` loop body fills exactly the requested number of
bytes whenever the fuel covers the remaining count. -/
theorem grGo_length (env : Env) :
    ∀ fuel cnt rem, rem ≤ fuel → (grGo env cnt rem fuel).length = rem := by
  intro fuel
  induction fuel with
  | zero =>
    intro cnt rem h
    have : rem = 0 := Nat.le_zero.mp h
    simp [grGo, this]
  | succ f ih =>
    intro cnt rem h
    by_cases hr : rem = 0
    · simp [grGo, hr]
    · rw [grGo]
      simp only [hr, if_false]
      rw [List.length_append, wordBytes_length, ih]
      · omega
      · omega

/-- The local challenge is 32 bytes. -/
theorem chOf_length (env : Env) (s : St) : (chOf env s).length = CHALLENGE_SIZE :=
  grGo_length env CHALLENGE_SIZE s.rngCnt CHALLENGE_SIZE le_rfl

/-- The AEAD nonce is 12 bytes. -/
theorem nonceOf_length (env : Env) (s : St) : (nonceOf env s).length = AES_IV_SIZE :=
  grGo_length env AES_IV_SIZE s.rngCnt AES_IV_SIZE le_rfl

/-- The received peer public key is 64 bytes. -/
theorem ppkOf_length (env : Env) (s : St) : (ppkOf env s).length = PUB_KEY_SIZE := by
  simp [ppkOf]

/-- The received peer signature is 64 bytes. -/
theorem psigOf_length (env : Env) (s : St) : (psigOf env s).length = SIGNATURE_SIZE := by
  simp [psigOf]

/-- The received peer challenge is 32 bytes. -/
theorem pchOf_length (env : Env) (s : St) : (pchOf env s).length = CHALLENGE_SIZE := by
  simp [pchOf]

/-- Signatures produced by the secure element are 64 bytes. -/
theorem sigBytes_length (env : Env) (h : Bytes) : (sigBytes env h).length = SIGNATURE_SIZE := by
  simp [sigBytes]

/-- SHA-256 digests are 32 bytes. -/
theorem sha256d_length (env : Env) (m : Bytes) : (sha256d env m).length = 32 := by
  simp [sha256d]

/-- Ciphertext has the plaintext's length. -/
theorem ctOf_length (env : Env) (s : St) (msg : Bytes) :
    (ctOf env s msg).length = msg.length := by
  simp [ctOf]

/-- Tags are 16 bytes. -/
theorem tagOf_length (env : Env) (s : St) (msg : Bytes) :
    (tagOf env s msg).length = AES_TAG_SIZE := by
  simp [tagOf]

/-- Transport view of a successful handshake trace. -/
theorem transportOps_pkeTrace (env : Env) (s : St)
    (hd : s.device_pubkey.length = PUB_KEY_SIZE) :
    transportOps (pkeTrace env s) =
      [(true, PUB_KEY_SIZE), (false, PUB_KEY_SIZE), (true, CHALLENGE_SIZE),
       (false, SIGNATURE_SIZE), (false, CHALLENGE_SIZE), (true, SIGNATURE_SIZE)] := by
  simp [transportOps, pkeTrace, evSize, hd, ppkOf_length, chOf_length,
    psigOf_length, pchOf_length, sigBytes_length]

set_option maxHeartbeats 4000000 in
/-- Inversion for a successful handshake: when `perform_key_exchange`
returns `ATCA_SUCCESS`, the trace and resulting state are exactly
`pkeTrace` and `pkeState`, and the ECDH call on the received peer public
key succeeded. -/
theorem pke_success_inv (env : Env) (s s' : St) (t : List Ev)
    (h : perform_key_exchange env s = (.success, s', t)) :
    t = pkeTrace env s ∧ s' = pkeState env s ∧
      env.ecdhStatus (ppkOf env s) = .success := by
  by_cases h1 : env.txOk s.txCnt = true
  case neg =>
    simp [perform_key_exchange, send_data, h1] at h
  case pos =>
  by_cases h2 : env.rxOk s.rxCnt = true
  case neg =>
    simp [perform_key_exchange, send_data, receive_data, PUB_KEY_SIZE, CHALLENGE_SIZE,
      h1, h2] at h
  case pos =>
  by_cases h3 : env.txOk (s.txCnt + 1) = true
  case neg =>
    simp [perform_key_exchange, send_data, receive_data, generate_random,
      PUB_KEY_SIZE, CHALLENGE_SIZE, h1, h2, h3] at h
  case pos =>
  by_cases h4 : env.rxOk (s.rxCnt + 1) = true
  case neg =>
    simp [perform_key_exchange, send_data, receive_data, generate_random,
      verify_peer_public_key, PUB_KEY_SIZE, CHALLENGE_SIZE, SIGNATURE_SIZE,
      h1, h2, h3, h4] at h
  case pos =>
  rcases sha256_compute_cases env s.shaCnt (grGo env s.rngCnt 32 32) with hs1 | hs1
  case inl =>
    simp [perform_key_exchange, send_data, receive_data, generate_random,
      verify_peer_public_key, PUB_KEY_SIZE, CHALLENGE_SIZE, SIGNATURE_SIZE,
      h1, h2, h3, h4, hs1] at h
  case inr =>
  by_cases h8 : env.importOk (List.map (env.rxByte s.rxCnt) (List.range 64)) = true
  case neg =>
    simp [perform_key_exchange, send_data, receive_data, generate_random,
      verify_peer_public_key, PUB_KEY_SIZE, CHALLENGE_SIZE, SIGNATURE_SIZE,
      h1, h2, h3, h4, hs1, h8] at h
  case pos =>
  by_cases h9 : env.setCurveOk (List.map (env.rxByte s.rxCnt) (List.range 64)) = true
  case neg =>
    simp [perform_key_exchange, send_data, receive_data, generate_random,
      verify_peer_public_key, PUB_KEY_SIZE, CHALLENGE_SIZE, SIGNATURE_SIZE,
      h1, h2, h3, h4, hs1, h8, h9] at h
  case pos =>
  by_cases h10 : env.verifyOk (List.map (env.rxByte (s.rxCnt + 1)) (List.range 64))
      (sha256d env (grGo env s.rngCnt 32 32))
      (List.map (env.rxByte s.rxCnt) (List.range 64)) = true
  case neg =>
    simp [perform_key_exchange, send_data, receive_data, generate_random,
      verify_peer_public_key, PUB_KEY_SIZE, CHALLENGE_SIZE, SIGNATURE_SIZE,
      h1, h2, h3, h4, hs1, h8, h9, h10] at h
  case pos =>
  by_cases h11 : env.rxOk (s.rxCnt + 1 + 1) = true
  case neg =>
    simp [perform_key_exchange, send_data, receive_data, generate_random,
      verify_peer_public_key, PUB_KEY_SIZE, CHALLENGE_SIZE, SIGNATURE_SIZE,
      h1, h2, h3, h4, hs1, h8, h9, h10, h11] at h
  case pos =>
  rcases sha256_compute_cases env (s.shaCnt + 1)
      (List.map (env.rxByte (s.rxCnt + 1 + 1)) (List.range 32)) with hs2 | hs2
  case inl =>
    simp [perform_key_exchange, send_data, receive_data, generate_random,
      verify_peer_public_key, sign_message, PUB_KEY_SIZE, CHALLENGE_SIZE,
      SIGNATURE_SIZE, h1, h2, h3, h4, hs1, h8, h9, h10, h11, hs2] at h
  case inr =>
  by_cases h15 : env.signStatus
      (sha256d env (List.map (env.rxByte (s.rxCnt + 1 + 1)) (List.range 32))) = Status.success
  case neg =>
    simp [perform_key_exchange, send_data, receive_data, generate_random,
      verify_peer_public_key, sign_message, PUB_KEY_SIZE, CHALLENGE_SIZE,
      SIGNATURE_SIZE, h1, h2, h3, h4, hs1, h8, h9, h10, h11, hs2, h15] at h
  case pos =>
  by_cases h16 : env.txOk (s.txCnt + 1 + 1) = true
  case neg =>
    simp [perform_key_exchange, send_data, receive_data, generate_random,
      verify_peer_public_key, sign_message, PUB_KEY_SIZE, CHALLENGE_SIZE,
      SIGNATURE_SIZE, h1, h2, h3, h4, hs1, h8, h9, h10, h11, hs2, h15, h16] at h
  case pos =>
  by_cases h17 : env.ecdhStatus (List.map (env.rxByte s.rxCnt) (List.range 64)) = Status.success
  case neg =>
    simp [perform_key_exchange, send_data, receive_data, generate_random,
      verify_peer_public_key, sign_message, derive_shared_secret, PUB_KEY_SIZE,
      CHALLENGE_SIZE, SIGNATURE_SIZE, h1, h2, h3, h4, hs1, h8, h9, h10, h11, hs2,
      h15, h16, h17] at h
  case pos =>
  rcases sha256_compute_cases env (s.shaCnt + 1 + 1)
      (ecdhSecret env (List.map (env.rxByte s.rxCnt) (List.range 64))) with hs3 | hs3
  case inl =>
    simp [perform_key_exchange, send_data, receive_data, generate_random,
      verify_peer_public_key, sign_message, derive_shared_secret, PUB_KEY_SIZE,
      CHALLENGE_SIZE, SIGNATURE_SIZE, h1, h2, h3, h4, hs1, h8, h9, h10, h11, hs2,
      h15, h16, h17, hs3] at h
  case inr =>
    simp [perform_key_exchange, send_data, receive_data, generate_random,
      verify_peer_public_key, sign_message, derive_shared_secret, PUB_KEY_SIZE,
      CHALLENGE_SIZE, SIGNATURE_SIZE, h1, h2, h3, h4, hs1, h8, h9, h10, h11, hs2,
      h15, h16, h17, hs3] at h
    obtain ⟨hS, hT⟩ := h
    subst hS
    subst hT
    refine ⟨?_, ?_, by simpa [ppkOf, PUB_KEY_SIZE] using h17⟩
    · simp [pkeTrace, ppkOf, chOf, psigOf, pchOf, PUB_KEY_SIZE, CHALLENGE_SIZE,
        SIGNATURE_SIZE]
    · simp [pkeState, ppkOf, chOf, psigOf, pchOf, derivedKey, PUB_KEY_SIZE,
        CHALLENGE_SIZE, SIGNATURE_SIZE, AES_KEY_SIZE, St.mk.injEq]

/-- A concrete test oracle on which every external operation succeeds, used
to exercise the theorems on closed inputs. -/
def envAll : Env :=
  { txOk := fun _ => true, rxOk := fun _ => true, rxByte := fun n i => (n + i) % 256
    rngWord := fun n => n + 1
    shaInitOk := fun _ => true, shaUpdateOk := fun _ => true, shaFinalOk := fun _ => true
    shaDigest := fun m j => (m.length + j) % 256
    ecdhStatus := fun _ => .success, ecdhByte := fun _ j => j
    signStatus := fun _ => .success, signByte := fun _ j => j % 256
    genkeyStatus := .success, genkeyByte := fun j => (j + 7) % 256
    atcabInitOk := true
    importOk := fun _ => true, setCurveOk := fun _ => true
    verifyOk := fun _ _ _ => true
    aesInitOk := fun _ => true, aesSetKeyOk := fun _ => true
    gcmRet := fun _ _ _ => 0
    gcmCt := fun _ _ _ i => i % 256, gcmTag := fun _ _ _ i => (i + 1) % 256
    conOk := fun _ => true
    conByte := fun n => if n % 2 = 1 then 13 else 65 }

/-- C1: in every successful run of the handshake `perform_key_exchange`, the
Transport operations occur in exactly the fixed order send 64-byte local
public key, receive 64-byte peer public key, send locally generated 32-byte
challenge, receive 64-byte peer signature, receive 32-byte peer challenge,
send 64-byte local signature over the peer challenge's hash; the full event
trace equals `pkeTrace`, so the public-key exchange precedes both
challenges, the local challenge is sent before the peer's response is
verified, and the peer's challenge is answered before shared-secret
derivation (the trailing ECDH event). -/
theorem c1_handshake_wire_order (env : Env) (s s' : St) (t : List Ev)
    (h : perform_key_exchange env s = (.success, s', t))
    (hd : s.device_pubkey.length = PUB_KEY_SIZE) :
    transportOps t =
      [(true, PUB_KEY_SIZE), (false, PUB_KEY_SIZE), (true, CHALLENGE_SIZE),
       (false, SIGNATURE_SIZE), (false, CHALLENGE_SIZE), (true, SIGNATURE_SIZE)] ∧
    t = pkeTrace env s := by
  obtain ⟨ht, _, _⟩ := pke_success_inv env s s' t h
  subst ht
  exact ⟨transportOps_pkeTrace env s hd, rfl⟩

/-- Closed instance of `c1_handshake_wire_order` at the all-success oracle. -/
theorem c1_handshake_wire_order_witness :
    transportOps (perform_key_exchange envAll (stBoot envAll)).2.2 =
      [(true, PUB_KEY_SIZE), (false, PUB_KEY_SIZE), (true, CHALLENGE_SIZE),
       (false, SIGNATURE_SIZE), (false, CHALLENGE_SIZE), (true, SIGNATURE_SIZE)] ∧
    (perform_key_exchange envAll (stBoot envAll)).2.2 = pkeTrace envAll (stBoot envAll) :=
  c1_handshake_wire_order envAll (stBoot envAll)
    (perform_key_exchange envAll (stBoot envAll)).2.1
    (perform_key_exchange envAll (stBoot envAll)).2.2
    (by decide) (by decide)

/-- A messaging-loop iteration whose console read fails takes the `continue`
branch with no external events. -/
theorem loop_iter_no_msg (env : Env) (s : St) (c : Nat)
    (hr : rui_go env s.conCnt [] (RX_BUFFER_SIZE - 1) = (c, none)) :
    loop_iter env s = .cont { s with conCnt := c } [] := by
  have hr' : rui_go env s.conCnt [] 127 = (c, none) := by simpa [RX_BUFFER_SIZE] using hr
  simp [loop_iter, receive_user_input, RX_BUFFER_SIZE, hr']

/-- A messaging-loop iteration that reads an empty line takes the `continue`
branch with no external events. -/
theorem loop_iter_empty_msg (env : Env) (s : St) (c : Nat)
    (hr : rui_go env s.conCnt [] (RX_BUFFER_SIZE - 1) = (c, some [])) :
    loop_iter env s = .cont { s with conCnt := c, rx_buffer := [] } [] := by
  have hr' : rui_go env s.conCnt [] 127 = (c, some []) := by simpa [RX_BUFFER_SIZE] using hr
  simp [loop_iter, receive_user_input, RX_BUFFER_SIZE, hr']

set_option maxHeartbeats 4000000 in
/-- Dichotomy for a messaging-loop iteration that reads a nonempty line:
either some step failed and the iteration entered `Error_Handler` (with any
encryption performed having used the current session key, the fresh nonce,
and the read plaintext), or every step succeeded and the iteration
continued with trace `iterTrace`. -/
theorem loop_iter_inv (env : Env) (s : St) (c : Nat) (msg : Bytes)
    (hr : rui_go env s.conCnt [] (RX_BUFFER_SIZE - 1) = (c, some msg))
    (hm : msg ≠ []) :
    (∃ t', loop_iter env s = .halted (t' ++ [Ev.halt]) ∧
       ∀ k iv pt, Ev.encrypt k iv pt ∈ t' →
         k = s.aes_key ∧ iv = nonceOf env s ∧ pt = msg) ∨
    loop_iter env s = .cont (iterState env s c msg) (iterTrace env s msg) := by
  have hr' : rui_go env s.conCnt [] 127 = (c, some msg) := by
    simpa [RX_BUFFER_SIZE] using hr
  by_cases g1 : env.aesInitOk s.aesCnt = true
  case neg =>
    refine Or.inl ⟨[Ev.rng (grGo env s.rngCnt 12 12)], ?_, ?_⟩
    · simp [loop_iter, receive_user_input, RX_BUFFER_SIZE, hr', hm,
        generate_random, encrypt_message, AES_IV_SIZE, g1]
    · intro k iv pt hmem; simp at hmem
  case pos =>
  by_cases g2 : env.aesSetKeyOk s.aes_key = true
  case neg =>
    refine Or.inl ⟨[Ev.rng (grGo env s.rngCnt 12 12)], ?_, ?_⟩
    · simp [loop_iter, receive_user_input, RX_BUFFER_SIZE, hr', hm,
        generate_random, encrypt_message, AES_IV_SIZE, g1, g2]
    · intro k iv pt hmem; simp at hmem
  case pos =>
  by_cases g3 : env.gcmRet s.aes_key (grGo env s.rngCnt 12 12) msg = 0
  case neg =>
    refine Or.inl ⟨[Ev.rng (grGo env s.rngCnt 12 12),
        Ev.encrypt s.aes_key (grGo env s.rngCnt 12 12) msg], ?_, ?_⟩
    · simp [loop_iter, receive_user_input, RX_BUFFER_SIZE, hr', hm,
        generate_random, encrypt_message, AES_IV_SIZE, g1, g2, g3]
    · intro k iv pt hmem
      simp [nonceOf, AES_IV_SIZE] at hmem ⊢
      tauto
  case pos =>
  by_cases g4 : env.txOk s.txCnt = true
  case neg =>
    refine Or.inl ⟨[Ev.rng (grGo env s.rngCnt 12 12),
        Ev.encrypt s.aes_key (grGo env s.rngCnt 12 12) msg,
        Ev.sendFail (grGo env s.rngCnt 12 12)], ?_, ?_⟩
    · simp [loop_iter, receive_user_input, RX_BUFFER_SIZE, hr', hm,
        generate_random, encrypt_message, send_data, AES_IV_SIZE, g1, g2, g3, g4]
    · intro k iv pt hmem
      simp [nonceOf, AES_IV_SIZE] at hmem ⊢
      tauto
  case pos =>
  by_cases g5 : env.txOk (s.txCnt + 1) = true
  case neg =>
    refine Or.inl ⟨[Ev.rng (nonceOf env s), Ev.encrypt s.aes_key (nonceOf env s) msg,
        Ev.send (nonceOf env s), Ev.sendFail (tagOf env s msg)], ?_, ?_⟩
    · simp [loop_iter, receive_user_input, RX_BUFFER_SIZE, hr', hm,
        generate_random, encrypt_message, send_data, nonceOf, tagOf,
        AES_IV_SIZE, AES_TAG_SIZE, g1, g2, g3, g4, g5]
    · intro k iv pt hmem
      simp [nonceOf, AES_IV_SIZE] at hmem ⊢
      tauto
  case pos =>
  by_cases g6 : env.txOk (s.txCnt + 1 + 1) = true
  case neg =>
    refine Or.inl ⟨[Ev.rng (nonceOf env s), Ev.encrypt s.aes_key (nonceOf env s) msg,
        Ev.send (nonceOf env s), Ev.send (tagOf env s msg),
        Ev.sendFail (ctOf env s msg)], ?_, ?_⟩
    · simp [loop_iter, receive_user_input, RX_BUFFER_SIZE, hr', hm,
        generate_random, encrypt_message, send_data, nonceOf, tagOf, ctOf,
        AES_IV_SIZE, AES_TAG_SIZE, g1, g2, g3, g4, g5, g6]
    · intro k iv pt hmem
      simp [nonceOf, AES_IV_SIZE] at hmem ⊢
      tauto
  case pos =>
  rcases sha256_compute_cases env s.shaCnt msg with hsL | hsL
  case inl =>
    refine Or.inl ⟨[Ev.rng (nonceOf env s), Ev.encrypt s.aes_key (nonceOf env s) msg,
        Ev.send (nonceOf env s), Ev.send (tagOf env s msg),
        Ev.send (ctOf env s msg)], ?_, ?_⟩
    · simp [loop_iter, receive_user_input, RX_BUFFER_SIZE, hr', hm,
        generate_random, encrypt_message, send_data, sign_message, nonceOf, tagOf,
        ctOf, AES_IV_SIZE, AES_TAG_SIZE, g1, g2, g3, g4, g5, g6, hsL]
    · intro k iv pt hmem
      simp [nonceOf, AES_IV_SIZE] at hmem ⊢
      tauto
  case inr =>
  by_cases g7 : env.signStatus (sha256d env msg) = Status.success
  case neg =>
    refine Or.inl ⟨[Ev.rng (nonceOf env s), Ev.encrypt s.aes_key (nonceOf env s) msg,
        Ev.send (nonceOf env s), Ev.send (tagOf env s msg), Ev.send (ctOf env s msg),
        Ev.signEv (sha256d env msg)], ?_, ?_⟩
    · simp [loop_iter, receive_user_input, RX_BUFFER_SIZE, hr', hm,
        generate_random, encrypt_message, send_data, sign_message, nonceOf, tagOf,
        ctOf, AES_IV_SIZE, AES_TAG_SIZE, g1, g2, g3, g4, g5, g6, hsL, g7]
    · intro k iv pt hmem
      simp [nonceOf, AES_IV_SIZE] at hmem ⊢
      tauto
  case pos =>
  by_cases g8 : env.txOk (s.txCnt + 1 + 1 + 1) = true
  case neg =>
    refine Or.inl ⟨[Ev.rng (nonceOf env s), Ev.encrypt s.aes_key (nonceOf env s) msg,
        Ev.send (nonceOf env s), Ev.send (tagOf env s msg), Ev.send (ctOf env s msg),
        Ev.signEv (sha256d env msg),
        Ev.sendFail (sigBytes env (sha256d env msg))], ?_, ?_⟩
    · simp [loop_iter, receive_user_input, RX_BUFFER_SIZE, hr', hm,
        generate_random, encrypt_message, send_data, sign_message, nonceOf, tagOf,
        ctOf, sigBytes, SIGNATURE_SIZE, AES_IV_SIZE, AES_TAG_SIZE,
        g1, g2, g3, g4, g5, g6, hsL, g7, g8]
    · intro k iv pt hmem
      simp [nonceOf, AES_IV_SIZE] at hmem ⊢
      tauto
  case pos =>
    refine Or.inr ?_
    simp [loop_iter, receive_user_input, RX_BUFFER_SIZE, hr', hm,
      generate_random, encrypt_message, send_data, sign_message, iterState,
      iterTrace, nonceOf, tagOf, ctOf, sigBytes, SIGNATURE_SIZE, AES_IV_SIZE,
      AES_TAG_SIZE, g1, g2, g3, g4, g5, g6, hsL, g7, g8, St.mk.injEq]

/-- The console line reader never returns more bytes than its remaining
capacity allows. -/
theorem rui_go_length (env : Env) :
    ∀ fuel con acc c out, rui_go env con acc fuel = (c, some out) →
      out.length ≤ acc.length + fuel := by
  intro fuel
  induction fuel with
  | zero =>
    intro con acc c out h
    simp [rui_go] at h
    obtain ⟨-, h2⟩ := h
    subst h2
    simp
  | succ f ih =>
    intro con acc c out h
    rw [rui_go] at h
    by_cases hc : env.conOk con = true
    · simp only [hc, if_true] at h
      by_cases hcr : env.conByte con % 256 = 13 ∨ env.conByte con % 256 = 10
      · simp only [hcr, if_true] at h
        simp at h
        obtain ⟨-, h2⟩ := h
        subst h2
        omega
      · simp only [hcr, if_false] at h
        have := ih (con + 1) (acc ++ [env.conByte con % 256]) c out h
        simp at this
        omega
    · simp [hc] at h

/-- Once an iteration of the messaging loop halts, the whole remaining run
is that iteration's trace, whatever fuel remains: no further input is read
and no further external operation occurs. -/
theorem run_loop_halted (env : Env) (s : St) (t : List Ev) (n : Nat)
    (h : loop_iter env s = .halted t) :
    run_loop env s (n + 1) = (t, true) := by
  simp [run_loop, h]

/-- Every encryption an iteration performs uses the session key held on
entry, and a continuing iteration leaves the session key unchanged. -/
theorem loop_iter_keys (env : Env) (s : St) :
    (∀ s' t, loop_iter env s = .cont s' t →
       s'.aes_key = s.aes_key ∧
       ∀ k iv pt, Ev.encrypt k iv pt ∈ t → k = s.aes_key) ∧
    (∀ t, loop_iter env s = .halted t →
       ∀ k iv pt, Ev.encrypt k iv pt ∈ t → k = s.aes_key) := by
  rcases hrg : rui_go env s.conCnt [] (RX_BUFFER_SIZE - 1) with ⟨c, r⟩
  cases r with
  | none =>
    have hni := loop_iter_no_msg env s c hrg
    refine ⟨fun s' t hct => ?_, fun t hh => ?_⟩
    · rw [hni] at hct
      simp only [IterRes.cont.injEq] at hct
      obtain ⟨h1, h2⟩ := hct
      subst h1; subst h2
      simp
    · rw [hni] at hh
      simp at hh
  | some msg =>
    by_cases hm : msg = []
    · subst hm
      have hni := loop_iter_empty_msg env s c hrg
      refine ⟨fun s' t hct => ?_, fun t hh => ?_⟩
      · rw [hni] at hct
        simp only [IterRes.cont.injEq] at hct
        obtain ⟨h1, h2⟩ := hct
        subst h1; subst h2
        simp
      · rw [hni] at hh
        simp at hh
    · rcases loop_iter_inv env s c msg hrg hm with ⟨t', hiter, hmemb⟩ | hiter
      · refine ⟨fun s' t hct => ?_, fun t hh => ?_⟩
        · rw [hiter] at hct
          simp at hct
        · rw [hiter] at hh
          simp only [IterRes.halted.injEq] at hh
          subst hh
          intro k iv pt hmem
          rcases List.mem_append.mp hmem with hin | hin
          · exact (hmemb k iv pt hin).1
          · simp at hin
      · refine ⟨fun s' t hct => ?_, fun t hh => ?_⟩
        · rw [hiter] at hct
          simp only [IterRes.cont.injEq] at hct
          obtain ⟨h1, h2⟩ := hct
          subst h1; subst h2
          refine ⟨by simp [iterState], ?_⟩
          intro k iv pt hmem
          simp [iterTrace] at hmem
          tauto
        · rw [hiter] at hh
          simp at hh

/-- Every encryption the messaging loop ever performs uses the session key
held when the loop was entered. -/
theorem run_loop_enc (env : Env) :
    ∀ fuel s tr hf, run_loop env s fuel = (tr, hf) →
      ∀ k iv pt, Ev.encrypt k iv pt ∈ tr → k = s.aes_key := by
  intro fuel
  induction fuel with
  | zero =>
    intro s tr hf h k iv pt hm
    simp [run_loop] at h
    obtain ⟨h1, -⟩ := h
    subst h1
    simp at hm
  | succ n ih =>
    intro s tr hf h k iv pt hm
    rw [run_loop] at h
    cases hit : loop_iter env s with
    | cont s' t =>
      rw [hit] at h
      simp only [Prod.mk.injEq] at h
      obtain ⟨h1, -⟩ := h
      subst h1
      rcases List.mem_append.mp hm with hin | hin
      · exact ((loop_iter_keys env s).1 s' t hit).2 k iv pt hin
      · have hk := ih s' (run_loop env s' n).1 (run_loop env s' n).2 rfl k iv pt hin
        rw [hk, ((loop_iter_keys env s).1 s' t hit).1]
    | halted t =>
      rw [hit] at h
      simp only [Prod.mk.injEq] at h
      obtain ⟨h1, -⟩ := h
      subst h1
      exact (loop_iter_keys env s).2 t hit k iv pt hm

set_option maxHeartbeats 4000000 in
/-- No iteration of the handshake ever invokes `wc_AesGcmEncrypt`: handshake
traces contain no encryption events, whatever the outcome. -/
theorem pke_no_encrypt (env : Env) (s : St) (k iv pt : Bytes) :
    Ev.encrypt k iv pt ∉ (perform_key_exchange env s).2.2 := by
  by_cases h1 : env.txOk s.txCnt = true
  case neg =>
    simp [perform_key_exchange, send_data, receive_data, generate_random, PUB_KEY_SIZE, CHALLENGE_SIZE, sigBytes, h1]
  case pos =>
  by_cases h2 : env.rxOk s.rxCnt = true
  case neg =>
    simp [perform_key_exchange, send_data, receive_data, generate_random, PUB_KEY_SIZE, CHALLENGE_SIZE, sigBytes, h1, h2]
  case pos =>
  by_cases h3 : env.txOk (s.txCnt + 1) = true
  case neg =>
    simp [perform_key_exchange, send_data, receive_data, generate_random, PUB_KEY_SIZE, CHALLENGE_SIZE, sigBytes, h1, h2, h3]
  case pos =>
  by_cases h4 : env.rxOk (s.rxCnt + 1) = true
  case neg =>
    simp [perform_key_exchange, send_data, receive_data, generate_random, PUB_KEY_SIZE, CHALLENGE_SIZE, verify_peer_public_key, SIGNATURE_SIZE, sigBytes, h1, h2, h3, h4]
  case pos =>
  rcases sha256_compute_cases env s.shaCnt (grGo env s.rngCnt 32 32) with hs1 | hs1
  case inl =>
    simp [perform_key_exchange, send_data, receive_data, generate_random, PUB_KEY_SIZE, CHALLENGE_SIZE, verify_peer_public_key, SIGNATURE_SIZE, sigBytes, h1, h2, h3, h4, hs1]
  case inr =>
  by_cases h8 : env.importOk (List.map (env.rxByte s.rxCnt) (List.range 64)) = true
  case neg =>
    simp [perform_key_exchange, send_data, receive_data, generate_random, PUB_KEY_SIZE, CHALLENGE_SIZE, verify_peer_public_key, SIGNATURE_SIZE, sigBytes, h1, h2, h3, h4, hs1, h8]
  case pos =>
  by_cases h9 : env.setCurveOk (List.map (env.rxByte s.rxCnt) (List.range 64)) = true
  case neg =>
    simp [perform_key_exchange, send_data, receive_data, generate_random, PUB_KEY_SIZE, CHALLENGE_SIZE, verify_peer_public_key, SIGNATURE_SIZE, sigBytes, h1, h2, h3, h4, hs1, h8, h9]
  case pos =>
  by_cases h10 : env.verifyOk (List.map (env.rxByte (s.rxCnt + 1)) (List.range 64))
      (sha256d env (grGo env s.rngCnt 32 32))
      (List.map (env.rxByte s.rxCnt) (List.range 64)) = true
  case neg =>
    simp [perform_key_exchange, send_data, receive_data, generate_random, PUB_KEY_SIZE, CHALLENGE_SIZE, verify_peer_public_key, SIGNATURE_SIZE, sigBytes, h1, h2, h3, h4, hs1, h8, h9, h10]
  case pos =>
  by_cases h11 : env.rxOk (s.rxCnt + 1 + 1) = true
  case neg =>
    simp [perform_key_exchange, send_data, receive_data, generate_random, PUB_KEY_SIZE, CHALLENGE_SIZE, verify_peer_public_key, SIGNATURE_SIZE, sigBytes, h1, h2, h3, h4, hs1, h8, h9, h10, h11]
  case pos =>
  rcases sha256_compute_cases env (s.shaCnt + 1)
      (List.map (env.rxByte (s.rxCnt + 1 + 1)) (List.range 32)) with hs2 | hs2
  case inl =>
    simp [perform_key_exchange, send_data, receive_data, generate_random, PUB_KEY_SIZE, CHALLENGE_SIZE, verify_peer_public_key, SIGNATURE_SIZE, sign_message, sigBytes, h1, h2, h3, h4, hs1, h8, h9, h10, h11, hs2]
  case inr =>
  by_cases h15 : env.signStatus
      (sha256d env (List.map (env.rxByte (s.rxCnt + 1 + 1)) (List.range 32))) = Status.success
  case neg =>
    simp [perform_key_exchange, send_data, receive_data, generate_random, PUB_KEY_SIZE, CHALLENGE_SIZE, verify_peer_public_key, SIGNATURE_SIZE, sign_message, sigBytes, h1, h2, h3, h4, hs1, h8, h9, h10, h11, hs2, h15]
  case pos =>
  by_cases h16 : env.txOk (s.txCnt + 1 + 1) = true
  case neg =>
    simp [perform_key_exchange, send_data, receive_data, generate_random, PUB_KEY_SIZE, CHALLENGE_SIZE, verify_peer_public_key, SIGNATURE_SIZE, sign_message, sigBytes, h1, h2, h3, h4, hs1, h8, h9, h10, h11, hs2, h15, h16]
  case pos =>
  by_cases h17 : env.ecdhStatus (List.map (env.rxByte s.rxCnt) (List.range 64)) = Status.success
  case neg =>
    simp [perform_key_exchange, send_data, receive_data, generate_random, PUB_KEY_SIZE, CHALLENGE_SIZE, verify_peer_public_key, SIGNATURE_SIZE, sign_message, derive_shared_secret, sigBytes, h1, h2, h3, h4, hs1, h8, h9, h10, h11, hs2, h15, h16, h17]
  case pos =>
  rcases sha256_compute_cases env (s.shaCnt + 1 + 1)
      (ecdhSecret env (List.map (env.rxByte s.rxCnt) (List.range 64))) with hs3 | hs3
  case inl =>
    simp [perform_key_exchange, send_data, receive_data, generate_random, PUB_KEY_SIZE, CHALLENGE_SIZE, verify_peer_public_key, SIGNATURE_SIZE, sign_message, derive_shared_secret, sigBytes, h1, h2, h3, h4, hs1, h8, h9, h10, h11, hs2, h15, h16, h17, hs3]
  case inr =>
  simp [perform_key_exchange, send_data, receive_data, generate_random, PUB_KEY_SIZE, CHALLENGE_SIZE, verify_peer_public_key, SIGNATURE_SIZE, sign_message, derive_shared_secret, sigBytes, h1, h2, h3, h4, hs1, h8, h9, h10, h11, hs2, h15, h16, h17, hs3]

/-- A successful handshake attempt ends the retry loop at once. -/
theorem hs_retry_succ (env : Env) (s : St) (n : Nat) (s' : St) (t : List Ev)
    (h : perform_key_exchange env s = (.success, s', t)) :
    handshake_retry env s (n + 1) = .ok s' t := by
  simp [handshake_retry, h]

/-- A failed attempt with no retries left enters `Error_Handler`. -/
theorem hs_retry_fail_one (env : Env) (s : St) (r : Status) (s' : St) (t : List Ev)
    (h : perform_key_exchange env s = (r, s', t)) (hr : r ≠ .success) :
    handshake_retry env s 1 = .halted (t ++ [.halt]) := by
  cases r <;> simp_all [handshake_retry]

/-- A failed attempt with retries left delays and runs the loop again. -/
theorem hs_retry_fail_step (env : Env) (s : St) (r : Status) (s' : St) (t : List Ev)
    (m : Nat) (h : perform_key_exchange env s = (r, s', t)) (hr : r ≠ .success) :
    handshake_retry env s (m + 2) =
      (match handshake_retry env s' (m + 1) with
       | .ok s'' t' => .ok s'' (t ++ .delay :: t')
       | .halted t' => .halted (t ++ .delay :: t')) := by
  cases r
  case success => exact absurd rfl hr
  all_goals
    conv_lhs => rw [handshake_retry, h]

/-- Retry-loop traces contain no encryption events either. -/
theorem hs_retry_no_encrypt (env : Env) :
    ∀ n s, (∀ s' t, handshake_retry env s n = .ok s' t →
              ∀ k iv pt, Ev.encrypt k iv pt ∉ t) ∧
           (∀ t, handshake_retry env s n = .halted t →
              ∀ k iv pt, Ev.encrypt k iv pt ∉ t) := by
  intro n
  induction n with
  | zero =>
    intro s
    refine ⟨fun s' t h => by simp [handshake_retry] at h,
            fun t h => ?_⟩
    simp only [handshake_retry, HsRes.halted.injEq] at h
    subst h
    simp
  | succ m ih =>
    intro s
    rcases hp : perform_key_exchange env s with ⟨r, s1, t1⟩
    have hnp : ∀ k iv pt, Ev.encrypt k iv pt ∉ t1 := by
      intro k iv pt
      have := pke_no_encrypt env s k iv pt
      rw [hp] at this
      exact this
    by_cases hr : r = .success
    · subst hr
      have heq := hs_retry_succ env s m s1 t1 hp
      refine ⟨fun s' t h => ?_, fun t h => ?_⟩
      · rw [heq] at h
        simp only [HsRes.ok.injEq] at h
        obtain ⟨-, h2⟩ := h
        subst h2
        exact hnp
      · rw [heq] at h
        simp at h
    · cases m with
      | zero =>
        have heq := hs_retry_fail_one env s r s1 t1 hp hr
        refine ⟨fun s' t h => ?_, fun t h => ?_⟩
        · rw [heq] at h
          simp at h
        · rw [heq] at h
          simp only [HsRes.halted.injEq] at h
          subst h
          intro k iv pt hmem
          rcases List.mem_append.mp hmem with hin | hin
          · exact hnp k iv pt hin
          · simp at hin
      | succ mm =>
        have heq := hs_retry_fail_step env s r s1 t1 mm hp hr
        cases hh : handshake_retry env s1 (mm + 1) with
        | ok s2 t2 =>
          rw [hh] at heq
          refine ⟨fun s' t h => ?_, fun t h => ?_⟩
          · rw [heq] at h
            simp only [HsRes.ok.injEq] at h
            obtain ⟨-, h2⟩ := h
            subst h2
            intro k iv pt hmem
            rcases List.mem_append.mp hmem with hin | hin
            · exact hnp k iv pt hin
            · rcases List.mem_cons.mp hin with hd | hin2
              · simp at hd
              · exact (ih s1).1 s2 t2 hh k iv pt hin2
          · rw [heq] at h
            simp at h
        | halted t2 =>
          rw [hh] at heq
          refine ⟨fun s' t h => ?_, fun t h => ?_⟩
          · rw [heq] at h
            simp at h
          · rw [heq] at h
            simp only [HsRes.halted.injEq] at h
            subst h
            intro k iv pt hmem
            rcases List.mem_append.mp hmem with hin | hin
            · exact hnp k iv pt hin
            · rcases List.mem_cons.mp hin with hd | hin2
              · simp at hd
              · exact (ih s1).2 t2 hh k iv pt hin2

/-- When the retry loop succeeds, its final state is the result of a
successful `perform_key_exchange` run. -/
theorem hs_retry_ok_inv (env : Env) :
    ∀ n s s₁ t₁, handshake_retry env s n = .ok s₁ t₁ →
      ∃ s₀ t₀, perform_key_exchange env s₀ = (.success, s₁, t₀) := by
  intro n
  induction n with
  | zero =>
    intro s s₁ t₁ h
    simp [handshake_retry] at h
  | succ m ih =>
    intro s s₁ t₁ h
    rcases hp : perform_key_exchange env s with ⟨r, s', t⟩
    by_cases hr : r = .success
    · subst hr
      rw [hs_retry_succ env s m s' t hp] at h
      simp only [HsRes.ok.injEq] at h
      obtain ⟨h1, -⟩ := h
      subst h1
      exact ⟨s, t, hp⟩
    · cases m with
      | zero =>
        rw [hs_retry_fail_one env s r s' t hp hr] at h
        simp at h
      | succ mm =>
        rw [hs_retry_fail_step env s r s' t mm hp hr] at h
        cases hh : handshake_retry env s' (mm + 1) with
        | ok s2 t2 =>
          rw [hh] at h
          simp only [HsRes.ok.injEq] at h
          obtain ⟨h1, -⟩ := h
          subst h1
          exact ih s' s2 t2 hh
        | halted t2 =>
          rw [hh] at h
          simp at h

/-- A failing `derive_shared_secret` leaves `aes_key` untouched. -/
theorem derive_fail_keeps_key (env : Env) (s : St)
    (h : (derive_shared_secret env s).1 ≠ .success) :
    (derive_shared_secret env s).2.1.aes_key = s.aes_key := by
  by_cases he : env.ecdhStatus s.peer_pubkey = .success
  · rcases sha256_compute_cases env s.shaCnt (ecdhSecret env s.peer_pubkey) with hs | hs
    · simp [derive_shared_secret, he, hs]
    · simp [derive_shared_secret, he, hs] at h
  · simp [derive_shared_secret, he]

/-- A fully successful `derive_shared_secret` writes exactly the truncated
digest of the shared secret into `aes_key`. -/
theorem derive_success_eq (env : Env) (s : St)
    (he : env.ecdhStatus s.peer_pubkey = .success)
    (h5 : env.shaInitOk s.shaCnt = true) (h6 : env.shaUpdateOk s.shaCnt = true)
    (h7 : env.shaFinalOk s.shaCnt = true) :
    derive_shared_secret env s =
      (.success,
       { s with shaCnt := s.shaCnt + 1,
                aes_key := (sha256d env (ecdhSecret env s.peer_pubkey)).take AES_KEY_SIZE },
       [.ecdhEv s.peer_pubkey]) := by
  simp [derive_shared_secret, sha256_compute, he, h5, h6, h7]

/-- A failing `derive_shared_secret` does not return `ATCA_SUCCESS`. -/
theorem derive_fail_result (env : Env) (s : St)
    (h : env.ecdhStatus s.peer_pubkey ≠ .success ∨ env.shaInitOk s.shaCnt = false ∨
         env.shaUpdateOk s.shaCnt = false ∨ env.shaFinalOk s.shaCnt = false) :
    (derive_shared_secret env s).1 ≠ .success := by
  by_cases he : env.ecdhStatus s.peer_pubkey = .success
  · rcases h with h | h | h | h
    · exact absurd he h
    all_goals
      simp [derive_shared_secret, sha256_compute, he, h]
  · simp [derive_shared_secret, he]

/-- Oracle on which every ECDH call fails. -/
def envEcdhBad : Env := { envAll with ecdhStatus := fun _ => .funcFail }

/-- Oracle on which every SATCOM transmit fails. -/
def envTxBad : Env := { envAll with txOk := fun _ => false }

/-- C2: when `derive_shared_secret` succeeds, the session key `aes_key` is
exactly the first 16 bytes of SHA-256 of the 32-byte ECDH shared secret the
secure element computed from the device key slot and the stored peer public
key; any ECDH failure or failure of any SHA-256 step yields an error status
instead, leaving `aes_key` unchanged. -/
theorem c2_derive_session_key (env : Env) (s : St) :
    (ecdhSecret env s.peer_pubkey).length = 32 ∧
    (env.ecdhStatus s.peer_pubkey = .success →
     env.shaInitOk s.shaCnt = true → env.shaUpdateOk s.shaCnt = true →
     env.shaFinalOk s.shaCnt = true →
     derive_shared_secret env s =
       (.success,
        { s with shaCnt := s.shaCnt + 1,
                 aes_key := (sha256d env (ecdhSecret env s.peer_pubkey)).take AES_KEY_SIZE },
        [.ecdhEv s.peer_pubkey])) ∧
    ((env.ecdhStatus s.peer_pubkey ≠ .success ∨ env.shaInitOk s.shaCnt = false ∨
      env.shaUpdateOk s.shaCnt = false ∨ env.shaFinalOk s.shaCnt = false) →
     (derive_shared_secret env s).1 ≠ .success ∧
     (derive_shared_secret env s).2.1.aes_key = s.aes_key) := by
  refine ⟨by simp [ecdhSecret], ?_, ?_⟩
  · intro he h5 h6 h7
    exact derive_success_eq env s he h5 h6 h7
  · intro h
    have hf := derive_fail_result env s h
    exact ⟨hf, derive_fail_keeps_key env s hf⟩

/-- Closed instance of `c2_derive_session_key`: a successful derivation on
the all-success oracle and a failed one on the ECDH-failing oracle. -/
theorem c2_derive_session_key_witness :
    derive_shared_secret envAll st0 =
      (.success,
       { st0 with shaCnt := st0.shaCnt + 1,
                  aes_key := (sha256d envAll (ecdhSecret envAll st0.peer_pubkey)).take AES_KEY_SIZE },
       [.ecdhEv st0.peer_pubkey]) ∧
    (derive_shared_secret envEcdhBad st0).1 ≠ .success ∧
    (derive_shared_secret envEcdhBad st0).2.1.aes_key = st0.aes_key :=
  ⟨(c2_derive_session_key envAll st0).2.1 rfl rfl rfl rfl,
   (c2_derive_session_key envEcdhBad st0).2.2 (Or.inl (by decide))⟩

/-- C10: `generate_random` is total with no error path: for every oracle,
state and length it fills exactly `len` bytes from the hardware RNG words
(whose call status the C code ignores: the embedding's oracle has no
failure outcome for `HAL_RNG_GenerateRandomNumber`), emits the single RNG
event, consumes one RNG word per four bytes, and returns no status at all
(its result type has no error component). -/
theorem c10_generate_random_total (env : Env) (s : St) (len : Nat) :
    (generate_random env s len).2.1.length = len ∧
    (generate_random env s len).2.2 = [Ev.rng (generate_random env s len).2.1] ∧
    (generate_random env s len).1 = { s with rngCnt := s.rngCnt + (len + 3) / 4 } := by
  refine ⟨?_, by simp [generate_random], by simp [generate_random]⟩
  simp [generate_random]
  exact grGo_length env len s.rngCnt len le_rfl

/-- C7: the supervisor retries the full handshake up to `MAX_RETRIES = 3`
attempts with a fixed delay between attempts; if attempt `k+1` (for
`k < 3` failures) succeeds, execution proceeds to messaging with that
attempt's state, and if all three attempts fail the process enters the
terminal halted state, after which `main_run` performs the same finite
trace whatever fuel remains — no further Transport operation ever occurs. -/
theorem c7_handshake_retry_policy (env : Env) (r1 : Status) (s1 : St) (t1 : List Ev)
    (r2 : Status) (s2 : St) (t2 : List Ev) (r3 : Status) (s3 : St) (t3 : List Ev)
    (h1 : perform_key_exchange env (stBoot env) = (r1, s1, t1))
    (h2 : perform_key_exchange env s1 = (r2, s2, t2))
    (h3 : perform_key_exchange env s2 = (r3, s3, t3)) :
    (r1 = .success → handshake_retry env (stBoot env) MAX_RETRIES = .ok s1 t1) ∧
    (r1 ≠ .success → r2 = .success →
       handshake_retry env (stBoot env) MAX_RETRIES = .ok s2 (t1 ++ .delay :: t2)) ∧
    (r1 ≠ .success → r2 ≠ .success → r3 = .success →
       handshake_retry env (stBoot env) MAX_RETRIES =
         .ok s3 (t1 ++ .delay :: (t2 ++ .delay :: t3))) ∧
    (r1 ≠ .success → r2 ≠ .success → r3 ≠ .success →
       handshake_retry env (stBoot env) MAX_RETRIES =
         .halted (t1 ++ .delay :: (t2 ++ .delay :: (t3 ++ [.halt]))) ∧
       (env.atcabInitOk = true → env.genkeyStatus = .success →
          ∀ fuel, main_run env fuel =
            (t1 ++ .delay :: (t2 ++ .delay :: (t3 ++ [.halt])), true))) := by
  refine ⟨?_, ?_, ?_, ?_⟩
  · intro hr1
    subst hr1
    exact hs_retry_succ env (stBoot env) 2 s1 t1 h1
  · intro hr1 hr2
    subst hr2
    have e1 := hs_retry_fail_step env (stBoot env) r1 s1 t1 1 h1 hr1
    have e2 := hs_retry_succ env s1 1 s2 t2 h2
    simp only [Nat.reduceAdd] at e1 e2
    show handshake_retry env (stBoot env) 3 = _
    rw [e1, e2]
  · intro hr1 hr2 hr3
    subst hr3
    have e1 := hs_retry_fail_step env (stBoot env) r1 s1 t1 1 h1 hr1
    have e2 := hs_retry_fail_step env s1 r2 s2 t2 0 h2 hr2
    have e3 := hs_retry_succ env s2 0 s3 t3 h3
    simp only [Nat.reduceAdd] at e1 e2 e3
    show handshake_retry env (stBoot env) 3 = _
    rw [e1, e2, e3]
  · intro hr1 hr2 hr3
    have e1 := hs_retry_fail_step env (stBoot env) r1 s1 t1 1 h1 hr1
    have e2 := hs_retry_fail_step env s1 r2 s2 t2 0 h2 hr2
    have e3 := hs_retry_fail_one env s2 r3 s3 t3 h3 hr3
    simp only [Nat.reduceAdd] at e1 e2 e3
    have hhs : handshake_retry env (stBoot env) MAX_RETRIES =
        .halted (t1 ++ .delay :: (t2 ++ .delay :: (t3 ++ [.halt]))) := by
      show handshake_retry env (stBoot env) 3 = _
      rw [e1, e2, e3]
    refine ⟨hhs, ?_⟩
    intro hb hg fuel
    simp [main_run, hb, hg, hhs]

/-- Closed instance of `c7_handshake_retry_policy`: on the all-success
oracle the first attempt succeeds and the retry loop returns it. -/
theorem c7_handshake_retry_policy_witness :
    handshake_retry envAll (stBoot envAll) MAX_RETRIES =
      .ok (perform_key_exchange envAll (stBoot envAll)).2.1
          (perform_key_exchange envAll (stBoot envAll)).2.2 :=
  (c7_handshake_retry_policy envAll
    (perform_key_exchange envAll (stBoot envAll)).1
    (perform_key_exchange envAll (stBoot envAll)).2.1
    (perform_key_exchange envAll (stBoot envAll)).2.2
    (perform_key_exchange envAll (perform_key_exchange envAll (stBoot envAll)).2.1).1
    (perform_key_exchange envAll (perform_key_exchange envAll (stBoot envAll)).2.1).2.1
    (perform_key_exchange envAll (perform_key_exchange envAll (stBoot envAll)).2.1).2.2
    (perform_key_exchange envAll (perform_key_exchange envAll (perform_key_exchange envAll (stBoot envAll)).2.1).2.1).1
    (perform_key_exchange envAll (perform_key_exchange envAll (perform_key_exchange envAll (stBoot envAll)).2.1).2.1).2.1
    (perform_key_exchange envAll (perform_key_exchange envAll (perform_key_exchange envAll (stBoot envAll)).2.1).2.1).2.2
    (by decide) (by decide) (by decide)).1 (by decide)

/-- Oracle on which `wc_AesGcmEncrypt` fails. -/
def envGcmBad : Env := { envAll with gcmRet := fun _ _ _ => 1 }

/-- Transport view of a successful messaging-loop iteration. -/
theorem transportOps_iterTrace (env : Env) (s : St) (msg : Bytes) :
    transportOps (iterTrace env s msg) =
      [(true, AES_IV_SIZE), (true, AES_TAG_SIZE), (true, msg.length),
       (true, SIGNATURE_SIZE)] := by
  simp [transportOps, iterTrace, evSize, nonceOf_length, tagOf_length, ctOf_length,
    sigBytes_length]

/-- C3: every message sent by the steady-state loop is transmitted as the
12-byte nonce, then the 16-byte tag, then the ciphertext of the plaintext's
length (with `1 ≤ len ≤ 127`), and finally — as a trailing separate step —
the 64-byte signature over SHA-256 of the plaintext (not the ciphertext),
produced by `atcab_sign(DEVICE_KEY_SLOT, ...)` in the secure element. -/
theorem c3_message_frame_order (env : Env) (s : St) (c : Nat) (msg : Bytes)
    (s' : St) (t : List Ev)
    (hr : rui_go env s.conCnt [] (RX_BUFFER_SIZE - 1) = (c, some msg))
    (hm : msg ≠ [])
    (hc : loop_iter env s = .cont s' t) :
    1 ≤ msg.length ∧ msg.length ≤ RX_BUFFER_SIZE - 1 ∧
    t = iterTrace env s msg ∧
    transportOps t =
      [(true, AES_IV_SIZE), (true, AES_TAG_SIZE), (true, msg.length),
       (true, SIGNATURE_SIZE)] ∧
    ∃ t₀, t = t₀ ++ [Ev.send (sigBytes env (sha256d env msg))] := by
  have hlen : msg.length ≤ RX_BUFFER_SIZE - 1 := by
    simpa using rui_go_length env (RX_BUFFER_SIZE - 1) s.conCnt [] c msg hr
  rcases loop_iter_inv env s c msg hr hm with ⟨t', hiter, -⟩ | hiter
  · rw [hiter] at hc
    simp at hc
  · rw [hiter] at hc
    simp only [IterRes.cont.injEq] at hc
    obtain ⟨-, h2⟩ := hc
    subst h2
    refine ⟨List.length_pos.mpr hm, hlen, rfl, transportOps_iterTrace env s msg, ?_⟩
    exact ⟨[.rng (nonceOf env s), .encrypt s.aes_key (nonceOf env s) msg,
      .send (nonceOf env s), .send (tagOf env s msg), .send (ctOf env s msg),
      .signEv (sha256d env msg)], by simp [iterTrace]⟩

/-- Closed instance of `c3_message_frame_order` at the all-success oracle,
whose console yields the one-byte line `"A"`. -/
theorem c3_message_frame_order_witness :
    1 ≤ ([65] : Bytes).length ∧ ([65] : Bytes).length ≤ RX_BUFFER_SIZE - 1 ∧
    iterTrace envAll st0 [65] = iterTrace envAll st0 [65] ∧
    transportOps (iterTrace envAll st0 [65]) =
      [(true, AES_IV_SIZE), (true, AES_TAG_SIZE), (true, ([65] : Bytes).length),
       (true, SIGNATURE_SIZE)] ∧
    ∃ t₀, iterTrace envAll st0 [65] =
      t₀ ++ [Ev.send (sigBytes envAll (sha256d envAll [65]))] :=
  c3_message_frame_order envAll st0 2 [65]
    (iterState envAll st0 2 [65]) (iterTrace envAll st0 [65])
    (by decide) (by decide) (by decide)

/-- C9: each sent message's nonce is generated by RandomSource calls made
for that message, immediately before encryption: the iteration's trace
begins with the RNG event followed by the encryption using exactly those
twelve bytes, which are the little-endian bytes of the three fresh RNG
words at stream positions `rngCnt`, `rngCnt + 1`, `rngCnt + 2`; the counter
then advances by three, so no later message can reread those positions —
there is no fixed or counter-derived nonce and no reuse detection, and
uniqueness rests entirely on the RandomSource. -/
theorem c9_nonce_freshness (env : Env) (s : St) (c : Nat) (msg : Bytes)
    (s' : St) (t : List Ev)
    (hr : rui_go env s.conCnt [] (RX_BUFFER_SIZE - 1) = (c, some msg))
    (hm : msg ≠ [])
    (hc : loop_iter env s = .cont s' t) :
    t.take 2 = [Ev.rng (nonceOf env s), Ev.encrypt s.aes_key (nonceOf env s) msg] ∧
    nonceOf env s =
      wordBytes (env.rngWord s.rngCnt) 4 ++ wordBytes (env.rngWord (s.rngCnt + 1)) 4 ++
        wordBytes (env.rngWord (s.rngCnt + 2)) 4 ∧
    (nonceOf env s).length = AES_IV_SIZE ∧
    s'.rngCnt = s.rngCnt + 3 := by
  rcases loop_iter_inv env s c msg hr hm with ⟨t', hiter, -⟩ | hiter
  · rw [hiter] at hc
    simp at hc
  · rw [hiter] at hc
    simp only [IterRes.cont.injEq] at hc
    obtain ⟨h1, h2⟩ := hc
    subst h1
    subst h2
    refine ⟨by simp [iterTrace], ?_, nonceOf_length env s, by simp [iterState]⟩
    simp [nonceOf, AES_IV_SIZE, grGo]

/-- Closed instance of `c9_nonce_freshness` at the all-success oracle. -/
theorem c9_nonce_freshness_witness :
    (iterTrace envAll st0 [65]).take 2 =
      [Ev.rng (nonceOf envAll st0), Ev.encrypt st0.aes_key (nonceOf envAll st0) [65]] ∧
    nonceOf envAll st0 =
      wordBytes (envAll.rngWord st0.rngCnt) 4 ++
        wordBytes (envAll.rngWord (st0.rngCnt + 1)) 4 ++
        wordBytes (envAll.rngWord (st0.rngCnt + 2)) 4 ∧
    (nonceOf envAll st0).length = AES_IV_SIZE ∧
    (iterState envAll st0 2 [65]).rngCnt = st0.rngCnt + 3 :=
  c9_nonce_freshness envAll st0 2 [65]
    (iterState envAll st0 2 [65]) (iterTrace envAll st0 [65])
    (by decide) (by decide) (by decide)

/-- C8: once a nonempty line is read, either every step of the iteration
succeeds (all four transmissions occur, in order), or the iteration enters
`Error_Handler`: its trace ends at the `halt` event and the whole remaining
run equals that trace whatever fuel remains — after the error no further
input is accepted and no further Transport or cryptographic operation is
ever performed. -/
theorem c8_fail_stop (env : Env) (s : St) (c : Nat) (msg : Bytes)
    (hr : rui_go env s.conCnt [] (RX_BUFFER_SIZE - 1) = (c, some msg))
    (hm : msg ≠ []) :
    (∀ t, loop_iter env s = .halted t →
       (∃ t', t = t' ++ [Ev.halt]) ∧ ∀ n, run_loop env s (n + 1) = (t, true)) ∧
    (∀ s' t, loop_iter env s = .cont s' t →
       transportOps t =
         [(true, AES_IV_SIZE), (true, AES_TAG_SIZE), (true, msg.length),
          (true, SIGNATURE_SIZE)]) := by
  constructor
  · intro t hh
    refine ⟨?_, fun n => run_loop_halted env s t n hh⟩
    rcases loop_iter_inv env s c msg hr hm with ⟨t', hiter, -⟩ | hiter
    · rw [hiter] at hh
      simp only [IterRes.halted.injEq] at hh
      exact ⟨t', hh.symm⟩
    · rw [hiter] at hh
      simp at hh
  · intro s' t hc
    rcases loop_iter_inv env s c msg hr hm with ⟨t', hiter, -⟩ | hiter
    · rw [hiter] at hc
      simp at hc
    · rw [hiter] at hc
      simp only [IterRes.cont.injEq] at hc
      obtain ⟨-, h2⟩ := hc
      subst h2
      exact transportOps_iterTrace env s msg
/-- Closed instance of `c8_fail_stop`: on the oracle whose AEAD encryption
fails, the iteration halts after the encryption attempt and the run is
frozen for every remaining fuel. -/
theorem c8_fail_stop_witness :
    (∃ t', ([Ev.rng (nonceOf envGcmBad st0),
             Ev.encrypt st0.aes_key (nonceOf envGcmBad st0) [65], Ev.halt] : List Ev) =
       t' ++ [Ev.halt]) ∧
    ∀ n, run_loop envGcmBad st0 (n + 1) =
      ([Ev.rng (nonceOf envGcmBad st0),
        Ev.encrypt st0.aes_key (nonceOf envGcmBad st0) [65], Ev.halt], true) :=
  (c8_fail_stop envGcmBad st0 2 [65] (by decide) (by decide)).1
    [Ev.rng (nonceOf envGcmBad st0),
     Ev.encrypt st0.aes_key (nonceOf envGcmBad st0) [65], Ev.halt]
    (by decide)

/-- C6: the input boundary itself enforces the frame ceiling: the console
reader never returns more than 127 bytes (a line of 128 or more characters
is cut off at 127 before anything else runs), so every plaintext that
reaches `wc_AesGcmEncrypt` in the messaging loop has `1 ≤ len ≤ 127`, and
no plaintext of length 128 ever reaches any cryptographic operation. -/
theorem c6_input_boundary (env : Env) (s : St) :
    (∀ s₁ msg, receive_user_input env s = (s₁, some msg) →
       msg.length ≤ RX_BUFFER_SIZE - 1) ∧
    (∀ t, ((∃ s', loop_iter env s = .cont s' t) ∨ loop_iter env s = .halted t) →
       ∀ k iv pt, Ev.encrypt k iv pt ∈ t →
         1 ≤ pt.length ∧ pt.length ≤ RX_BUFFER_SIZE - 1) := by
  constructor
  · intro s₁ msg h
    rcases hrg : rui_go env s.conCnt [] (RX_BUFFER_SIZE - 1) with ⟨c, r⟩
    unfold receive_user_input at h
    rw [hrg] at h
    cases r with
    | none => simp at h
    | some m =>
      simp only [Prod.mk.injEq, Option.some.injEq] at h
      obtain ⟨-, h2⟩ := h
      subst h2
      simpa using rui_go_length env (RX_BUFFER_SIZE - 1) s.conCnt [] c m hrg
  · intro t hiter k iv pt hmem
    rcases hrg : rui_go env s.conCnt [] (RX_BUFFER_SIZE - 1) with ⟨c, r⟩
    cases r with
    | none =>
      have hni := loop_iter_no_msg env s c hrg
      rcases hiter with ⟨s', hct⟩ | hh
      · rw [hni] at hct
        simp only [IterRes.cont.injEq] at hct
        obtain ⟨-, h2⟩ := hct
        subst h2
        simp at hmem
      · rw [hni] at hh
        simp at hh
    | some msg =>
      by_cases hm : msg = []
      · subst hm
        have hni := loop_iter_empty_msg env s c hrg
        rcases hiter with ⟨s', hct⟩ | hh
        · rw [hni] at hct
          simp only [IterRes.cont.injEq] at hct
          obtain ⟨-, h2⟩ := hct
          subst h2
          simp at hmem
        · rw [hni] at hh
          simp at hh
      · have hlen : msg.length ≤ RX_BUFFER_SIZE - 1 := by
          simpa using rui_go_length env (RX_BUFFER_SIZE - 1) s.conCnt [] c msg hrg
        have hpos : 1 ≤ msg.length := List.length_pos.mpr hm
        rcases loop_iter_inv env s c msg hrg hm with ⟨t', hit, hmb⟩ | hit
        · rcases hiter with ⟨s', hct⟩ | hh
          · rw [hit] at hct
            simp at hct
          · rw [hit] at hh
            simp only [IterRes.halted.injEq] at hh
            subst hh
            rcases List.mem_append.mp hmem with hin | hin
            · obtain ⟨-, -, h3⟩ := hmb k iv pt hin
              subst h3
              exact ⟨hpos, hlen⟩
            · simp at hin
        · rcases hiter with ⟨s', hct⟩ | hh
          · rw [hit] at hct
            simp only [IterRes.cont.injEq] at hct
            obtain ⟨-, h2⟩ := hct
            subst h2
            simp [iterTrace] at hmem
            obtain ⟨-, -, h3⟩ := hmem
            subst h3
            exact ⟨hpos, hlen⟩
          · rw [hit] at hh
            simp at hh

/-- Closed instance of `c6_input_boundary` at the all-success oracle. -/
theorem c6_input_boundary_witness :
    ([65] : Bytes).length ≤ RX_BUFFER_SIZE - 1 :=
  (c6_input_boundary envAll st0).1 { st0 with conCnt := 2, rx_buffer := [65] } [65]
    (by decide)

/-- The 64-byte signature received by a `verify_peer_public_key` call made
in state `s`. -/
def rsigOf (env : Env) (s : St) : Bytes :=
  (List.range SIGNATURE_SIZE).map (env.rxByte s.rxCnt)

/-- The handshake state just before the `verify_peer_public_key` step: the
peer public key and the local challenge are stored, two transmits, one
receive and eight RNG words have been consumed. -/
def hsMid (env : Env) (s : St) : St :=
  { s with peer_pubkey := ppkOf env s, challenge := chOf env s,
           txCnt := s.txCnt + 1 + 1, rxCnt := s.rxCnt + 1, rngCnt := s.rngCnt + 8 }

set_option maxHeartbeats 1000000 in
/-- C5: provided the signature is received and the hashing steps succeed,
the `VerifyPeer` step returns `ATCA_FUNC_FAIL` exactly when the peer-key
import, the curve setup, or the signature verification fails, and returns
`ATCA_SUCCESS` exactly when the received 64-byte signature verifies against
SHA-256 of the locally generated challenge under the stored peer public
key; moreover, inside `perform_key_exchange`, any non-success of this step
aborts the whole handshake at once with `ATCA_FUNC_FAIL` — the trace stops
at the verify step and no later handshake operation runs. -/
theorem c5_verify_peer_auth (env : Env) :
    (∀ s, env.rxOk s.rxCnt = true → env.shaInitOk s.shaCnt = true →
       env.shaUpdateOk s.shaCnt = true → env.shaFinalOk s.shaCnt = true →
       (((verify_peer_public_key env s).1 = .success) ↔
          (env.importOk s.peer_pubkey = true ∧ env.setCurveOk s.peer_pubkey = true ∧
           env.verifyOk (rsigOf env s) (sha256d env s.challenge) s.peer_pubkey = true)) ∧
       (((verify_peer_public_key env s).1 = .funcFail) ↔
          (env.importOk s.peer_pubkey = false ∨ env.setCurveOk s.peer_pubkey = false ∨
           env.verifyOk (rsigOf env s) (sha256d env s.challenge) s.peer_pubkey = false))) ∧
    (∀ s r5 s5 t5, env.txOk s.txCnt = true → env.rxOk s.rxCnt = true →
       env.txOk (s.txCnt + 1) = true →
       verify_peer_public_key env (hsMid env s) = (r5, s5, t5) → r5 ≠ .success →
       perform_key_exchange env s =
         (.funcFail, s5,
          [.send s.device_pubkey, .recv (ppkOf env s), .rng (chOf env s),
           .send (chOf env s)] ++ t5)) := by
  constructor
  · intro s hrx h5 h6 h7
    by_cases hi : env.importOk s.peer_pubkey = true <;>
      by_cases hc : env.setCurveOk s.peer_pubkey = true <;>
      by_cases hv : env.verifyOk (List.map (env.rxByte s.rxCnt) (List.range 64))
        (sha256d env s.challenge) s.peer_pubkey = true <;>
      simp [verify_peer_public_key, receive_data, sha256_compute, rsigOf,
        SIGNATURE_SIZE, hrx, h5, h6, h7, hi, hc, hv]
  · intro s r5 s5 t5 h1 h2 h3 hv hr5
    simp only [hsMid, ppkOf, chOf, PUB_KEY_SIZE, CHALLENGE_SIZE] at hv
    simp only [perform_key_exchange, send_data, receive_data, generate_random,
      PUB_KEY_SIZE, CHALLENGE_SIZE, h1, h2, h3, if_true, ne_eq]
    rw [hv]
    simp [hr5, ppkOf, chOf, PUB_KEY_SIZE, CHALLENGE_SIZE]

/-- Closed instance of the `VerifyPeer` characterisation at the
all-success oracle. -/
theorem c5_verify_peer_auth_witness :
    (((verify_peer_public_key envAll st0).1 = .success) ↔
       (envAll.importOk st0.peer_pubkey = true ∧ envAll.setCurveOk st0.peer_pubkey = true ∧
        envAll.verifyOk (rsigOf envAll st0) (sha256d envAll st0.challenge) st0.peer_pubkey = true)) ∧
    (((verify_peer_public_key envAll st0).1 = .funcFail) ↔
       (envAll.importOk st0.peer_pubkey = false ∨ envAll.setCurveOk st0.peer_pubkey = false ∨
        envAll.verifyOk (rsigOf envAll st0) (sha256d envAll st0.challenge) st0.peer_pubkey = false)) :=
  (c5_verify_peer_auth envAll).1 st0 (by decide) (by decide) (by decide) (by decide)

/-- C4: the messaging loop is entered only after a successful
`handshake_retry`, and every encryption the whole program ever performs
uses a key equal to the `aes_key` written by the fully successful
`derive_shared_secret` at the end of that handshake — the first 16 bytes
of SHA-256 of the ECDH secret for the stored peer public key; a failing
derivation never writes `aes_key`. -/
theorem c4_session_key_provenance (env : Env) (fuel : Nat) (tr : List Ev) (hf : Bool)
    (k iv pt : Bytes)
    (hm : main_run env fuel = (tr, hf)) (he : Ev.encrypt k iv pt ∈ tr) :
    (∃ s₁ t₁, handshake_retry env (stBoot env) MAX_RETRIES = .ok s₁ t₁ ∧
       env.ecdhStatus s₁.peer_pubkey = .success ∧
       k = s₁.aes_key ∧ s₁.aes_key = derivedKey env s₁.peer_pubkey) ∧
    (∀ s₂, (derive_shared_secret env s₂).1 ≠ .success →
       (derive_shared_secret env s₂).2.1.aes_key = s₂.aes_key) := by
  refine ⟨?_, fun s₂ h => derive_fail_keeps_key env s₂ h⟩
  unfold main_run at hm
  by_cases hb : env.atcabInitOk = true
  case neg =>
    simp [hb] at hm
    obtain ⟨h1, -⟩ := hm
    subst h1
    simp at he
  case pos =>
  by_cases hg : env.genkeyStatus = .success
  case neg =>
    simp [hb, hg] at hm
    obtain ⟨h1, -⟩ := hm
    subst h1
    simp at he
  case pos =>
  simp only [hb, hg, not_true_eq_false, Bool.true_eq_false, if_false, ne_eq,
    not_false_eq_true, ite_false, ite_true] at hm
  cases hhs : handshake_retry env (stBoot env) MAX_RETRIES with
  | halted t =>
    rw [hhs] at hm
    simp only [Prod.mk.injEq] at hm
    obtain ⟨h1, -⟩ := hm
    subst h1
    exact absurd he ((hs_retry_no_encrypt env MAX_RETRIES (stBoot env)).2 t hhs k iv pt)
  | ok s₁ t₁ =>
    rw [hhs] at hm
    simp only [Prod.mk.injEq] at hm
    obtain ⟨h1, -⟩ := hm
    subst h1
    rcases List.mem_append.mp he with hin | hin
    · exact absurd hin ((hs_retry_no_encrypt env MAX_RETRIES (stBoot env)).1 s₁ t₁ hhs k iv pt)
    · have hk : k = s₁.aes_key := run_loop_enc env fuel s₁ _ _ rfl k iv pt hin
      obtain ⟨s₀, t₀, hp⟩ := hs_retry_ok_inv env MAX_RETRIES (stBoot env) s₁ t₁ hhs
      obtain ⟨-, hstate, hecdh⟩ := pke_success_inv env s₀ s₁ t₀ hp
      subst hstate
      refine ⟨pkeState env s₀, t₁, rfl, ?_, hk, ?_⟩
      · simpa [pkeState] using hecdh
      · simp [pkeState]

/-- Closed instance of `c4_session_key_provenance`: the encryption of the
first loop message on the all-success oracle uses exactly the derived key. -/
theorem c4_session_key_provenance_witness :
    (∃ s₁ t₁, handshake_retry envAll (stBoot envAll) MAX_RETRIES = .ok s₁ t₁ ∧
       envAll.ecdhStatus s₁.peer_pubkey = .success ∧
       derivedKey envAll (ppkOf envAll (stBoot envAll)) = s₁.aes_key ∧
       s₁.aes_key = derivedKey envAll s₁.peer_pubkey) ∧
    (∀ s₂, (derive_shared_secret envAll s₂).1 ≠ .success →
       (derive_shared_secret envAll s₂).2.1.aes_key = s₂.aes_key) :=
  c4_session_key_provenance envAll 1 (main_run envAll 1).1 (main_run envAll 1).2
    (derivedKey envAll (ppkOf envAll (stBoot envAll)))
    (nonceOf envAll (pkeState envAll (stBoot envAll)))
    [65] (by decide) (by decide)

end Stm32
